import Mathlib

/-!
# Verification of the resume–job matching core

Shallow embedding of the matching and ranking engine of the
AI-Resume-Analyzer repository
(`src/matching/job_matcher.py`, `src/matching/ranking_algorithm.py`,
`src/matching/similarity_scorer.py`, `src/matching/embeddings.py`),
together with theorems settling the specification claims about it.

Python floats are modelled as rationals (`ℚ`); real-valued computations
involving square roots (the cosine similarity) are modelled over `ℝ`.
Python dicts of weights are modelled as association lists, Python's
stable `sorted` as insertion sort with a total preorder.
-/

namespace ResumeAnalyzer

/-! ## Strings: lowercase normalisation and substring containment

Python's `s.lower()` is modelled as a character-wise lowercase map on the
underlying character list; Python's `a in b` on strings is substring
containment, modelled by `containsSub`. -/

/-- The list of characters of `s`, lowercased (models Python `s.lower()`). -/
def lowerKey (s : String) : List Char :=
  s.data.map Char.toLower

/-- Predicate `startsWith needle hay`: `needle` is an initial segment of `hay`. -/
def startsWith : List Char → List Char → Bool
  | [], _ => true
  | _ :: _, [] => false
  | a :: as, b :: bs => a == b && startsWith as bs

/-- Predicate `containsSub needle hay`: `needle` occurs contiguously inside `hay`
(models Python's `needle in hay` on strings; the empty needle is contained
in everything). -/
def containsSub : List Char → List Char → Bool
  | needle, [] => needle.isEmpty
  | needle, c :: t => startsWith needle (c :: t) || containsSub needle t

/-! ## Data model -/

/-- The numeric fields of `MatchResult` (src/models/match_result.py) used by
the ranking pipeline, plus the job identity. All scores are on the 0–100
scale, as constructed by `JobMatcher._calculate_match`. -/
structure MatchResult where
  jobId : Nat
  overall_score : ℚ
  skills_match_score : ℚ
  experience_match_score : ℚ
  education_match_score : ℚ
  semantic_similarity_score : ℚ
deriving DecidableEq, Repr

/-- The `RankingWeights` dataclass of `ranking_algorithm.py` with its default
field values. -/
structure RankingWeights where
  skills : ℚ := 0.35
  experience : ℚ := 0.25
  education : ℚ := 0.15
  semantic : ℚ := 0.25
deriving DecidableEq, Repr

/-- Embeds `RankingAlgorithm.default_weights = RankingWeights()`. -/
def defaultWeights : RankingWeights := {}

/-- Python `d.get(k, dflt)` on a string-keyed dict, modelled on an
association list with distinct keys. -/
def dictGet (d : List (String × ℚ)) (k : String) (dflt : ℚ) : ℚ :=
  match d.find? (fun p => p.1 == k) with
  | some p => p.2
  | none => dflt

/-- Embeds `RankingAlgorithm._get_weights`: an empty/absent custom dict yields the
defaults, otherwise each field is looked up with the default as fallback.
No validation of any kind is performed. -/
def getWeights (custom : List (String × ℚ)) : RankingWeights :=
  if custom.isEmpty then defaultWeights
  else
    { skills := dictGet custom "skills" defaultWeights.skills
      experience := dictGet custom "experience" defaultWeights.experience
      education := dictGet custom "education" defaultWeights.education
      semantic := dictGet custom "semantic" defaultWeights.semantic }

/-- The unclamped weighted linear combination of the four sub-scores
(the `score` local of `RankingAlgorithm._calculate_weighted_score`). -/
def weightedSum (m : MatchResult) (w : RankingWeights) : ℚ :=
  m.skills_match_score * w.skills +
  m.experience_match_score * w.experience +
  m.education_match_score * w.education +
  m.semantic_similarity_score * w.semantic

/-- Embeds `RankingAlgorithm._calculate_weighted_score`: weighted sum of the four
sub-scores, clamped into the 0–100 range. -/
def calculateWeightedScore (m : MatchResult) (w : RankingWeights) : ℚ :=
  let score :=
    m.skills_match_score * w.skills +
    m.experience_match_score * w.experience +
    m.education_match_score * w.education +
    m.semantic_similarity_score * w.semantic
  max 0 (min 100 score)

/-- The ordering used by `sorted(matches, key=lambda x: x.overall_score,
reverse=True)`: `a` may come before `b` iff `b`'s overall score is at
most `a`'s. -/
def byScoreDesc (a b : MatchResult) : Prop :=
  b.overall_score ≤ a.overall_score

instance : DecidableRel byScoreDesc :=
  fun a b => inferInstanceAs (Decidable (b.overall_score ≤ a.overall_score))

instance : IsTotal MatchResult byScoreDesc :=
  ⟨fun a b => le_total b.overall_score a.overall_score⟩

instance : IsTrans MatchResult byScoreDesc :=
  ⟨fun _ _ _ h1 h2 => le_trans h2 h1⟩

/-- Embeds `RankingAlgorithm.rank_matches`: recompute every match's
`overall_score` with the resolved weights, then sort descending by
`overall_score`. Python's `sorted` is a stable sort; `List.insertionSort`
with the total preorder `byScoreDesc` is extensionally the same stable
descending sort. -/
def rankMatches (ms : List MatchResult) (customWeights : List (String × ℚ)) :
    List MatchResult :=
  if ms.isEmpty then []
  else
    let weights := getWeights customWeights
    let scored := ms.map
      (fun m => { m with overall_score := calculateWeightedScore m weights })
    List.insertionSort byScoreDesc scored

/-! ## Matching orchestrator (`JobMatcher.match_resume_to_jobs`) -/

/-- The weight dict installed by `MatchingConfig.__post_init__` when none
is supplied. -/
def defaultWeightsList : List (String × ℚ) :=
  [("skills", 0.35), ("experience", 0.25), ("education", 0.15), ("semantic", 0.25)]

/-- The `MatchingConfig` dataclass of `job_matcher.py`, with the defaults
installed by `__post_init__`. Note the default `similarity_threshold`
is `0.7`, a value on the 0–1 scale. -/
structure MatchingConfig where
  similarity_threshold : ℚ := 0.7
  top_k : Nat := 10
  weights : List (String × ℚ) := defaultWeightsList
deriving Repr

/-- Embeds `JobMatcher.match_resume_to_jobs`, with per-job scoring abstracted into
`score : α → Option MatchResult` (`none` models `_calculate_match` raising,
which the `try/except` swallows with `continue`, so the job is skipped).
The pipeline is: score each job, skipping failures; rank; keep matches with
`overall_score >= similarity_threshold * 100`; truncate to `top_k`.
`topK = none` models the `top_k=None` default argument; Python's
`top_k = top_k or self.config.top_k` also replaces a passed `0` by the
config value, because `0` is falsy. -/
def matchResumeToJobs {α : Type} (score : α → Option MatchResult)
    (jobs : List α) (cfg : MatchingConfig) (topK : Option Nat) :
    List MatchResult :=
  if jobs.isEmpty then []
  else
    let k := match topK with
      | some k => if k = 0 then cfg.top_k else k
      | none => cfg.top_k
    let ms := jobs.filterMap score
    let ranked := rankMatches ms cfg.weights
    let filtered := ranked.filter
      (fun m => cfg.similarity_threshold * 100 ≤ m.overall_score)
    filtered.take k

/-! ## Feature scorer: skills (`JobMatcher._calculate_skills_match`) -/

/-- Embeds `JobMatcher._calculate_skills_match`. Skill lists are lowercased into
sets (modelled by `dedup` of the lowercase keys); exact matches are the
intersection; each remaining required skill with a substring relation to
some candidate skill adds a half-weight fuzzy match; the ratio against the
number of distinct required skills is capped at 1. -/
def calculateSkillsMatch (resume_skills required_skills : List String) : ℚ :=
  if required_skills.isEmpty then 1
  else if resume_skills.isEmpty then 0
  else
    let resumeLower := (resume_skills.map lowerKey).dedup
    let requiredLower := (required_skills.map lowerKey).dedup
    let exactCount :=
      (requiredLower.filter (fun r => decide (r ∈ resumeLower))).length
    let fuzzyCount :=
      (requiredLower.filter (fun r => decide (r ∉ resumeLower) &&
        resumeLower.any (fun s => containsSub r s || containsSub s r))).length
    let totalMatches : ℚ := exactCount + (1/2 : ℚ) * fuzzyCount
    min (totalMatches / requiredLower.length) 1

/-- The skills formula exactly as the spec words it: `1.0` when the
required set is empty, otherwise
`min(1.0, (exact_count + 0.5 * fuzzy_count) / card required)`, with exact
matches the case-insensitive equalities and fuzzy matches the remaining
required skills standing in a substring relation to some candidate skill.
Written for comparison against `calculateSkillsMatch`. -/
def skillsScoreSpec (candidate_skills required_skills : List String) : ℚ :=
  if required_skills.isEmpty then 1
  else
    let candLower := (candidate_skills.map lowerKey).dedup
    let reqLower := (required_skills.map lowerKey).dedup
    let exactCount :=
      (reqLower.filter (fun r => decide (r ∈ candLower))).length
    let fuzzyCount :=
      (reqLower.filter (fun r => decide (r ∉ candLower) &&
        candLower.any (fun s => containsSub r s || containsSub s r))).length
    min 1 ((exactCount + (1/2 : ℚ) * fuzzyCount) / reqLower.length)

/-! ## Feature scorer: experience (`JobMatcher._calculate_experience_match`) -/

/-- Embeds `JobMatcher._calculate_experience_match`, with the free-text
`job.experience_required` abstracted to its parsed value: `none` models an
empty/absent requirement string (the early `return 1.0`), `some r` models a
string from which `_parse_experience_years` extracts `r` years. The
candidate's years are approximated as `len(resume.experience) * 2`. -/
def calculateExperienceMatch (numExperienceEntries : Nat)
    (requiredYears : Option Nat) : ℚ :=
  match requiredYears with
  | none => 1
  | some required =>
    let resumeYears : ℚ := numExperienceEntries * 2
    if (required : ℚ) ≤ resumeYears then 1
    else if (0.7 : ℚ) * required ≤ resumeYears then 0.8
    else if (0.5 : ℚ) * required ≤ resumeYears then 0.6
    else 0.4

/-- The experience step function exactly as the spec words it, as a
function of the candidate's years: `1.0` with no requirement; else `1.0`
if `candidate_years ≥ required`, `0.8` if `≥ 0.7·required`, `0.6` if
`≥ 0.5·required`, else `0.4`. Written for comparison against
`calculateExperienceMatch`. -/
def experienceScoreSpec (candidateYears : ℚ) (requiredYears : Option ℚ) : ℚ :=
  match requiredYears with
  | none => 1
  | some required =>
    if required ≤ candidateYears then 1
    else if 0.7 * required ≤ candidateYears then 0.8
    else if 0.5 * required ≤ candidateYears then 0.6
    else 0.4

/-! ## Matched and missing skills
(`JobMatcher._get_matched_skills`, `JobMatcher._identify_missing_skills`) -/

/-- Lookup in a Python dict built by comprehension (later bindings of the
same key overwrite earlier ones): the value of the LAST pair whose key
matches. -/
def lookupLast (pairs : List (List Char × String)) (k : List Char) :
    Option String :=
  (pairs.reverse.find? (fun p => p.1 == k)).map (fun p => p.2)

/-- Embeds `JobMatcher._get_matched_skills`: for each distinct required skill (by
lowercase key) that the resume also has, emit the resume's original-cased
spelling (the dict `{s.lower(): s}` keeps the last in case of clashes). -/
def getMatchedSkills (resume_skills required_skills : List String) :
    List String :=
  let resumePairs := resume_skills.map (fun s => (lowerKey s, s))
  let requiredLower := (required_skills.map lowerKey).dedup
  requiredLower.filterMap (fun r => lookupLast resumePairs r)

/-- Embeds `JobMatcher._identify_missing_skills`: for each distinct required skill
(original casing from the dict `{s.lower(): s}`, last wins) that has no
exact lowercase match and no substring relation with any resume skill,
emit the required skill's original spelling. -/
def identifyMissingSkills (resume_skills required_skills : List String) :
    List String :=
  let resumeLower := (resume_skills.map lowerKey).dedup
  let requiredPairs := required_skills.map (fun s => (lowerKey s, s))
  let requiredKeys := (required_skills.map lowerKey).dedup
  requiredKeys.filterMap (fun r =>
    (lookupLast requiredPairs r).bind (fun orig =>
      if r ∈ resumeLower then none
      else if resumeLower.any
          (fun s => containsSub r s || containsSub s r) then none
      else some orig))

/-! ## Embeddings (`EmbeddingGenerator.generate_embedding`) and cosine
similarity (`SimilarityScorer.cosine_similarity`) -/

/-- Embeds `EmbeddingGenerator.generate_embedding`, with the outcome of the
OpenAI API call abstracted as `modelResult` (`some v` = the returned
embedding, `none` = the call raised). Blank text short-circuits to the
zero vector; the `except` branch also returns the zero vector. -/
def generateEmbedding (dimension : Nat) (text : String)
    (modelResult : Option (List ℚ)) : List ℚ :=
  if text.data.all Char.isWhitespace then List.replicate dimension 0
  else
    match modelResult with
    | some emb => emb
    | none => List.replicate dimension 0

/-- Sum of squares of the entries of a vector. -/
def sumSq (v : List ℚ) : ℚ :=
  (v.map (fun x => x * x)).sum

/-- Embeds `np.dot` on flat vectors. -/
def dotProduct (v1 v2 : List ℚ) : ℚ :=
  (List.zipWith (fun a b => a * b) v1 v2).sum

/-- Embeds `np.linalg.norm`: the L2 norm, a real number. -/
noncomputable def l2norm (v : List ℚ) : ℝ :=
  Real.sqrt ((sumSq v : ℚ) : ℝ)

/-- Embeds `SimilarityScorer.cosine_similarity`: if either norm is zero return
`0.0`, otherwise the dot product over the product of norms, clamped into
`[0, 1]` by `max(0.0, min(1.0, similarity))`. -/
noncomputable def cosineSimilarity (v1 v2 : List ℚ) : ℝ :=
  let dot : ℝ := ((dotProduct v1 v2 : ℚ) : ℝ)
  let norm1 := l2norm v1
  let norm2 := l2norm v2
  if norm1 = 0 ∨ norm2 = 0 then 0
  else max 0 (min 1 (dot / (norm1 * norm2)))

/-! ## Concrete values used in scenarios, counterexamples and witnesses -/

/-- The spec's scenario weights
`{skills: 0.5, experience: 0.3, education: 0.1, semantic: 0.1}`. -/
def wSpec : List (String × ℚ) :=
  [("skills", 1/2), ("experience", 3/10), ("education", 1/10), ("semantic", 1/10)]

/-- Weight map summing to `0.95` (the spec's invalid-configuration
scenario). -/
def w95 : List (String × ℚ) :=
  [("skills", 1/2), ("experience", 3/10), ("education", 1/10), ("semantic", 1/20)]

/-- Match with sub-scores `(skills 80, experience 60, education 100,
semantic 50)`; the stored overall score is irrelevant, `rank_matches`
overwrites it. -/
def exSub : MatchResult := ⟨1, 0, 80, 60, 100, 50⟩

/-- Tie pair: both get overall `64` under `wSpec`, but `tieA` (first in
input order) has the smaller skills sub-score. -/
def tieA : MatchResult := ⟨1, 0, 60, 80, 50, 50⟩

/-- See `tieA`. -/
def tieB : MatchResult := ⟨2, 0, 80, 60, 10, 50⟩

/-- Match scoring 90 under the default weights (all sub-scores 90). -/
def m90 : MatchResult := ⟨1, 0, 90, 90, 90, 90⟩

/-- Match scoring 73 under the default weights. -/
def m73 : MatchResult := ⟨2, 0, 73, 73, 73, 73⟩

/-- Match scoring 40 under the default weights. -/
def m40 : MatchResult := ⟨3, 0, 40, 40, 40, 40⟩

/-- Match whose sub-scores are all 100. -/
def mHundred : MatchResult := ⟨1, 0, 100, 100, 100, 100⟩

/-- Config with the spec scenario's `threshold = 50` read on the 0–100
scale, `top_k = 2`, default weights. -/
def cfgThr50 : MatchingConfig := { similarity_threshold := 50, top_k := 2 }

/-- Config with threshold `0.5` on the 0–1 scale actually used by the
code, `top_k = 2`, default weights. -/
def cfgThr05 : MatchingConfig := { similarity_threshold := 1/2, top_k := 2 }

/-- Config passing every match through the threshold filter. -/
def cfgZero : MatchingConfig := { similarity_threshold := 0, top_k := 10 }

/-- A match every sub-score of which is 80. -/
def okMatch : MatchResult := ⟨1, 0, 80, 80, 80, 80⟩

/-- Per-job scorer where job `1` scores `okMatch` and every other job's
scoring raises (models `_calculate_match` throwing on a malformed job). -/
def cexScore : Nat → Option MatchResult :=
  fun n => if n = 1 then some okMatch else none

/-! ## Helper lemmas -/

/-- Helper: `rank_matches` never rejects anything: on any input and any custom
weight dict it returns a list of the same length as its input. -/
theorem rankMatches_length (ms : List MatchResult) (w : List (String × ℚ)) :
    (rankMatches ms w).length = ms.length := by
  unfold rankMatches
  by_cases h : ms.isEmpty
  · have : ms = [] := List.isEmpty_iff.mp h
    subst this
    simp
  · rw [if_neg h]
    rw [(List.perm_insertionSort byScoreDesc _).length_eq]
    exact List.length_map _ _

/-- Helper: `rank_matches` output is sorted by descending `overall_score` and is a
permutation of the rescored input. -/
theorem rankMatches_sorted_perm (ms : List MatchResult) (w : List (String × ℚ)) :
    List.Sorted byScoreDesc (rankMatches ms w) ∧
      (rankMatches ms w).Perm (ms.map (fun m =>
        { m with overall_score := calculateWeightedScore m (getWeights w) })) := by
  unfold rankMatches
  by_cases h : ms.isEmpty
  · have : ms = [] := List.isEmpty_iff.mp h
    subst this
    exact ⟨List.sorted_nil, by simp⟩
  · rw [if_neg h]
    exact ⟨List.sorted_insertionSort byScoreDesc _,
      List.perm_insertionSort byScoreDesc _⟩

/-! ## Claim theorems -/

/-- C1: for every match and every weight map, the overall score computed by
the ranking algorithm is the weighted linear combination of the four
sub-scores (already on the 0–100 scale) clamped into `[0, 100]`; and on the
spec's scenario — weights `{skills: 0.5, experience: 0.3, education: 0.1,
semantic: 0.1}` with sub-scores `(80, 60, 100, 50)` — ranking produces
overall score exactly `73`. -/
theorem c1_overall_score_weighted_clamped :
    (∀ (m : MatchResult) (w : RankingWeights),
        calculateWeightedScore m w = max 0 (min 100 (weightedSum m w)) ∧
        0 ≤ calculateWeightedScore m w ∧ calculateWeightedScore m w ≤ 100) ∧
    rankMatches [exSub] wSpec = [{ exSub with overall_score := 73 }] := by
  constructor
  · intro m w
    refine ⟨rfl, le_max_left 0 _, ?_⟩
    exact max_le (by norm_num) (min_le_left 100 _)
  · have hw : getWeights wSpec = ⟨1/2, 3/10, 1/10, 1/10⟩ := rfl
    simp only [rankMatches, hw, exSub, List.isEmpty_cons]
    norm_num [calculateWeightedScore, List.insertionSort, List.orderedInsert,
      min_def, max_def]

/-- C2 counterexample: under the scenario weights, `tieA` and `tieB` both
get overall score `64`, `tieA` has the strictly smaller skills sub-score,
and yet `rank_matches` keeps `tieA` first (Python's `sorted` is stable and
sorts only by `overall_score`), contradicting the claimed tie-break on
`skills_score`. -/
theorem c2_equal_scores_keep_input_order :
    rankMatches [tieA, tieB] wSpec =
      [{ tieA with overall_score := 64 }, { tieB with overall_score := 64 }] ∧
    ({ tieA with overall_score := 64 } : MatchResult).overall_score =
      ({ tieB with overall_score := 64 } : MatchResult).overall_score ∧
    ({ tieA with overall_score := 64 } : MatchResult).skills_match_score <
      ({ tieB with overall_score := 64 } : MatchResult).skills_match_score := by
  refine ⟨?_, by norm_num [tieA, tieB], by norm_num [tieA, tieB]⟩
  have hw : getWeights wSpec = ⟨1/2, 3/10, 1/10, 1/10⟩ := rfl
  simp only [rankMatches, hw, tieA, tieB, List.isEmpty_cons]
  norm_num [calculateWeightedScore, List.insertionSort, List.orderedInsert,
    byScoreDesc, min_def, max_def]

/-- C2 (amended): `rank_matches` output is sorted non-increasing by
`overall_score` and is a permutation of the rescored input; ties are not
reordered (no tie-break on `skills_score` or job id is applied — Python's
stable sort keeps equal scores in input order). -/
theorem c2_rank_sorted_no_tiebreak :
    ∀ (ms : List MatchResult) (w : List (String × ℚ)),
      List.Sorted byScoreDesc (rankMatches ms w) ∧
      (rankMatches ms w).Perm (ms.map (fun m =>
        { m with overall_score := calculateWeightedScore m (getWeights w) })) :=
  fun ms w => rankMatches_sorted_perm ms w

/-- C3: the skills sub-score computed by the code coincides with the
spec's formula — `1.0` for an empty required set, otherwise
`min(1, (exact + 0.5·fuzzy) / card required)` — on all inputs, and on
the scenario (candidate `{Python, AWS}`, required `{Python, Django, AWS}`)
it is exactly `2/3`. -/
theorem c3_skills_score_formula :
    (∀ (cs rs : List String), calculateSkillsMatch cs rs = skillsScoreSpec cs rs) ∧
    calculateSkillsMatch ["Python", "AWS"] ["Python", "Django", "AWS"] = 2/3 := by
  constructor
  · intro cs rs
    by_cases hr : rs.isEmpty
    · simp [calculateSkillsMatch, skillsScoreSpec, hr]
    · by_cases hc : cs.isEmpty
      · have : cs = [] := List.isEmpty_iff.mp hc
        subst this
        simp only [calculateSkillsMatch, skillsScoreSpec, hr]
        simp [List.filter_eq_nil_iff, min_def]
      · simp only [calculateSkillsMatch, skillsScoreSpec, hr, hc,
          Bool.false_eq_true, if_false]
        exact min_comm _ _
  · have hres : ((["Python", "AWS"]).map lowerKey).dedup =
        ["python".data, "aws".data] := by decide
    have hreq : ((["Python", "Django", "AWS"]).map lowerKey).dedup =
        ["python".data, "django".data, "aws".data] := by decide
    have hexact : ((["python".data, "django".data, "aws".data]).filter
        (fun r => decide (r ∈ ["python".data, "aws".data]))).length = 2 := by decide
    have hfuzzy : ((["python".data, "django".data, "aws".data]).filter
        (fun r => decide (r ∉ ["python".data, "aws".data]) &&
          (["python".data, "aws".data]).any
            (fun s => containsSub r s || containsSub s r))).length = 0 := by decide
    simp only [calculateSkillsMatch, hres, hreq, hexact, hfuzzy]
    norm_num [min_def]

/-- C4 counterexample: with `top_k = 2` and three matches scoring 90, 73
and 40, a caller-supplied threshold of `50` read on the 0–100 scale (as the
claim states) yields the empty result, not the claimed `[90, 73]`: the code
multiplies the threshold by 100 before comparing, so `50` means `5000` and
every match is dropped. -/
theorem c4_threshold_scale_cex :
    matchResumeToJobs some [m90, m73, m40] cfgThr50 none = [] := by
  have hw : getWeights defaultWeightsList = ⟨0.35, 0.25, 0.15, 0.25⟩ := rfl
  simp only [matchResumeToJobs, rankMatches, m90, m73, m40, cfgThr50, hw,
    List.isEmpty_cons, List.filterMap_cons]
  norm_num [calculateWeightedScore, List.insertionSort, List.orderedInsert,
    byScoreDesc, List.filter, min_def, max_def]

/-- C4 (amended): the pipeline drops every match whose recomputed overall
score is strictly below `similarity_threshold * 100` — the threshold is on
the 0–1 scale — then truncates to at most `top_k`, so for every positive
caller-supplied `top_k` the result has length at most `top_k`; with
`top_k = 2`, threshold `0.5` and matches scoring 90, 73, 40 the result is
exactly the matches scoring 90 and 73, in that order. -/
theorem c4_filter_then_truncate :
    (∀ {α : Type} (score : α → Option MatchResult) (jobs : List α)
        (cfg : MatchingConfig) (k : Nat), 0 < k →
        (matchResumeToJobs score jobs cfg (some k)).length ≤ k) ∧
    matchResumeToJobs some [m90, m73, m40] cfgThr05 none =
      [{ m90 with overall_score := 90 }, { m73 with overall_score := 73 }] := by
  constructor
  · intro α score jobs cfg k hk
    unfold matchResumeToJobs
    by_cases hj : jobs.isEmpty
    · simp [hj]
    · rw [if_neg hj]
      have hk0 : (if k = 0 then cfg.top_k else k) = k :=
        if_neg (Nat.pos_iff_ne_zero.mp hk)
      simp only [hk0]
      rw [List.length_take]
      exact min_le_left k _
  · have hw : getWeights defaultWeightsList = ⟨0.35, 0.25, 0.15, 0.25⟩ := rfl
    simp only [matchResumeToJobs, rankMatches, m90, m73, m40, cfgThr05, hw,
      List.isEmpty_cons, List.filterMap_cons]
    norm_num [calculateWeightedScore, List.insertionSort, List.orderedInsert,
      byScoreDesc, List.filter, min_def, max_def, List.take]

/-- Witness for C4 (amended): the length bound applied at a concrete
input with `top_k = 2`. -/
theorem c4_filter_then_truncate_witness :
    (matchResumeToJobs some [m90] cfgThr05 (some 2)).length ≤ 2 :=
  c4_filter_then_truncate.1 some [m90] cfgThr05 2 (by norm_num)

/-- C5 counterexample: the weight map summing to `0.95` raises nothing:
`rank_matches` silently proceeds, resolves the weights as given, and
returns a normally scored ranking (here the all-100 match gets overall
`95`). No `ConfigurationError` exists anywhere on this code path. -/
theorem c5_invalid_weights_accepted_cex :
    ((w95.map Prod.snd).sum = 19/20) ∧
    rankMatches [mHundred] w95 = [{ mHundred with overall_score := 95 }] := by
  constructor
  · norm_num [w95]
  · have hw : getWeights w95 = ⟨1/2, 3/10, 1/10, 1/20⟩ := rfl
    simp only [rankMatches, hw, mHundred, List.isEmpty_cons]
    norm_num [calculateWeightedScore, List.insertionSort, List.orderedInsert,
      min_def, max_def]

/-- C5 (amended): the code performs no weight validation at all —
`_get_weights` accepts any weight map (missing keys fall back to the
defaults, sums different from 1.0 and negative entries are used as-is) and
ranking always proceeds, returning as many results as it was given; in
particular the `0.95`-sum map resolves to exactly its own values. -/
theorem c5_no_weight_validation :
    (∀ (w : List (String × ℚ)) (ms : List MatchResult),
        (rankMatches ms w).length = ms.length) ∧
    getWeights w95 = ⟨1/2, 3/10, 1/10, 1/20⟩ :=
  ⟨fun w ms => rankMatches_length ms w, rfl⟩

/-- C6 counterexample: `"hello"` is not blank, yet with the embedding model
call failing the generator returns the zero vector instead of propagating a
failure — exactly what the claim says never happens. -/
theorem c6_zero_vector_on_failure_cex :
    ("hello".data.all Char.isWhitespace) = false ∧
    generateEmbedding 3 "hello" none = List.replicate 3 0 := by
  refine ⟨by decide, ?_⟩
  have h : ("hello".data.all Char.isWhitespace) = false := by decide
  simp [generateEmbedding, h]

/-- C6 (amended): whenever the underlying model call fails,
`generate_embedding` swallows the error and returns the zero vector of the
configured dimension — the same sentinel used for blank input — and the
semantic similarity computed downstream against any vector is then `0`, so
matching silently proceeds with a corrupted semantic signal instead of
failing the batch. -/
theorem c6_failure_yields_zero_vector :
    ∀ (d : Nat) (t : String) (v : List ℚ),
      generateEmbedding d t none = List.replicate d 0 ∧
      cosineSimilarity (generateEmbedding d t none) v = 0 := by
  intro d t v
  have hz : generateEmbedding d t none = List.replicate d 0 := by
    unfold generateEmbedding
    by_cases h : t.data.all Char.isWhitespace <;> simp [h]
  refine ⟨hz, ?_⟩
  rw [hz]
  have hs : sumSq (List.replicate d 0) = 0 := by
    simp [sumSq, List.map_replicate]
  have hn : l2norm (List.replicate d 0) = 0 := by
    unfold l2norm
    rw [hs]
    norm_num
  simp only [cosineSimilarity]
  rw [if_pos (Or.inl hn)]

/-- C7 counterexample: a resume with one experience entry against a job
requiring 3 years. Under the claim's heuristic (`2.5` years per entry,
giving 2.5 years) the step function returns `0.8`; the code multiplies by
`2` (giving 2 years) and returns `0.6`. -/
theorem c7_multiplier_cex :
    experienceScoreSpec ((5/2 : ℚ) * 1) (some 3) = 4/5 ∧
    calculateExperienceMatch 1 (some 3) = 3/5 := by
  constructor
  · simp only [experienceScoreSpec]
    norm_num
  · simp only [calculateExperienceMatch]
    norm_num

/-- C7 (amended): the code approximates the candidate's years of
experience as the number of experience entries times **2** (not 2.5), and
on that approximation applies exactly the spec's step function: 1.0 when
no requirement or enough years, 0.8 at ≥ 0.7×required, 0.6 at
≥ 0.5×required, else 0.4. -/
theorem c7_experience_heuristic_times_two :
    ∀ (n : Nat) (req : Option Nat),
      calculateExperienceMatch n req =
        experienceScoreSpec ((n : ℚ) * 2) (req.map (fun r => (r : ℚ))) := by
  intro n req
  cases req with
  | none => rfl
  | some r => rfl

/-- A successful `lookupLast` on the dict built from a skill list returns
one of the original skills, and that skill's lowercase key is the key that
was looked up. -/
theorem lookupLast_eq_some {l : List String} {k : List Char} {v : String}
    (h : lookupLast (l.map (fun s => (lowerKey s, s))) k = some v) :
    v ∈ l ∧ lowerKey v = k := by
  unfold lookupLast at h
  cases hf : (l.map (fun s => (lowerKey s, s))).reverse.find? (fun p => p.1 == k) with
  | none => rw [hf] at h; simp at h
  | some p =>
    rw [hf] at h
    simp only [Option.map_some', Option.some.injEq] at h
    have hpk := List.find?_some hf
    have hmem : p ∈ (l.map (fun s => (lowerKey s, s))).reverse :=
      List.mem_of_find?_eq_some hf
    rw [List.mem_reverse, List.mem_map] at hmem
    obtain ⟨s, hs, hps⟩ := hmem
    subst hps
    subst h
    exact ⟨hs, eq_of_beq hpk⟩

/-- C8: matched and missing skills are disjoint — a skill reported as
matched (it is a required skill the resume also has, in the resume's
casing) never also appears in the missing list (required skills with no
exact lowercase match in the resume). -/
theorem c8_matched_missing_disjoint :
    ∀ (resume required : List String) (s : String),
      s ∈ getMatchedSkills resume required →
      s ∉ identifyMissingSkills resume required := by
  intro resume required s hmem hmiss
  unfold getMatchedSkills at hmem
  rw [List.mem_filterMap] at hmem
  obtain ⟨r, _, hlook⟩ := hmem
  obtain ⟨hsin, hkey⟩ := lookupLast_eq_some hlook
  have hsl : lowerKey s ∈ (resume.map lowerKey).dedup := by
    rw [List.mem_dedup]
    exact List.mem_map_of_mem lowerKey hsin
  unfold identifyMissingSkills at hmiss
  rw [List.mem_filterMap] at hmiss
  obtain ⟨r2, _, heq⟩ := hmiss
  cases hl2 : lookupLast (required.map (fun t => (lowerKey t, t))) r2 with
  | none => rw [hl2] at heq; simp at heq
  | some orig =>
    rw [hl2] at heq
    simp only [Option.some_bind] at heq
    by_cases h1 : r2 ∈ (resume.map lowerKey).dedup
    · rw [if_pos h1] at heq
      simp at heq
    · rw [if_neg h1] at heq
      by_cases h2 : ((resume.map lowerKey).dedup.any
          (fun t => containsSub r2 t || containsSub t r2)) = true
      · rw [if_pos h2] at heq
        simp at heq
      · rw [if_neg h2] at heq
        simp only [Option.some.injEq] at heq
        obtain ⟨_, hkey2⟩ := lookupLast_eq_some hl2
        subst heq
        rw [hkey2] at hsl
        exact h1 hsl

/-- Witness for C8 at a concrete input: `"Python"` (resume casing) is
matched against required `{python, AWS}` and is indeed absent from the
missing list. -/
theorem c8_matched_missing_disjoint_witness :
    "Python" ∈ getMatchedSkills ["Python"] ["python", "AWS"] ∧
    "Python" ∉ identifyMissingSkills ["Python"] ["python", "AWS"] :=
  ⟨by decide, c8_matched_missing_disjoint ["Python"] ["python", "AWS"] "Python" (by decide)⟩

/-- C9 counterexample: job `2`'s scoring fails; the orchestrator's return
value is *identical* to what it returns when job `2` is not in the input at
all — the failing job is only skipped (and logged), no diagnostics list of
skipped items is returned alongside the result (the function returns only
the list of successful matches). -/
theorem c9_no_diagnostics_cex :
    matchResumeToJobs cexScore [1, 2] cfgZero none =
      matchResumeToJobs cexScore [1] cfgZero none ∧
    cexScore 2 = none := by
  constructor
  · have h1 : ([1, 2] : List Nat).filterMap cexScore = [okMatch] := by
      simp [cexScore]
    have h2 : ([1] : List Nat).filterMap cexScore = [okMatch] := by
      simp [cexScore]
    simp only [matchResumeToJobs, h1, h2, List.isEmpty_cons,
      Bool.false_eq_true, if_false]
  · simp [cexScore]

/-- C9 (amended): a per-job scoring error is isolated — the failing job is
excluded and the remaining jobs are still scored, ranked, filtered and
truncated exactly as if the failing job had not been supplied; but the
error is only logged, not recorded in any returned diagnostics. -/
theorem c9_failing_job_isolated :
    ∀ {α : Type} (score : α → Option MatchResult) (cfg : MatchingConfig)
      (topK : Option Nat) (l1 l2 : List α) (j : α), score j = none →
      matchResumeToJobs score (l1 ++ j :: l2) cfg topK =
        matchResumeToJobs score (l1 ++ l2) cfg topK := by
  intro α score cfg topK l1 l2 j h
  unfold matchResumeToJobs
  have hfm : (l1 ++ j :: l2).filterMap score = (l1 ++ l2).filterMap score := by
    simp [List.filterMap_append, List.filterMap_cons, h]
  have hne : ((l1 ++ j :: l2).isEmpty) = false := by simp
  rw [hne]
  simp only [Bool.false_eq_true, if_false]
  by_cases h2 : (l1 ++ l2).isEmpty
  · have hl : l1 = [] ∧ l2 = [] := by simpa [List.isEmpty_iff] using h2
    obtain ⟨ha, hb⟩ := hl
    subst ha
    subst hb
    rw [if_pos h2]
    simp [h, rankMatches]
  · rw [if_neg h2, hfm]

/-- Witness for C9 (amended): the isolation equation applied at the
concrete failing job `5` (with `l1 = []`, `l2 = []`). -/
theorem c9_failing_job_isolated_witness :
    matchResumeToJobs cexScore ([] ++ 5 :: []) cfgZero none =
      matchResumeToJobs cexScore ([] ++ []) cfgZero none :=
  c9_failing_job_isolated cexScore cfgZero none [] [] 5 rfl

/-- C10: `cosine_similarity` is total; for vectors of equal dimension its
result is clamped into `[0, 1]` (negative cosines clamp up to 0), and it is
exactly `0` when either vector has zero L2 norm (the guarded division is
never executed in that case). -/
theorem c10_cosine_guarded_bounded :
    ∀ (v1 v2 : List ℚ), v1.length = v2.length →
      0 ≤ cosineSimilarity v1 v2 ∧ cosineSimilarity v1 v2 ≤ 1 ∧
        ((l2norm v1 = 0 ∨ l2norm v2 = 0) → cosineSimilarity v1 v2 = 0) := by
  intro v1 v2 _
  simp only [cosineSimilarity]
  by_cases h : l2norm v1 = 0 ∨ l2norm v2 = 0
  · rw [if_pos h]
    exact ⟨le_refl 0, by norm_num, fun _ => rfl⟩
  · rw [if_neg h]
    exact ⟨le_max_left 0 _, max_le (by norm_num) (min_le_left 1 _),
      fun hc => absurd hc h⟩

/-- Witness for C10 at concrete orthogonal vectors of equal dimension. -/
theorem c10_cosine_guarded_bounded_witness :
    0 ≤ cosineSimilarity [1, 0] [0, 1] ∧ cosineSimilarity [1, 0] [0, 1] ≤ 1 ∧
      ((l2norm [1, 0] = 0 ∨ l2norm [0, 1] = 0) → cosineSimilarity [1, 0] [0, 1] = 0) :=
  c10_cosine_guarded_bounded [1, 0] [0, 1] rfl

end ResumeAnalyzer
